import Mathlib

/-!
# Verification of the coupon-catalog backend (`src/api/index.py`)

Shallow embedding of the FastAPI coupon backend:
* Python strings are modelled as `List Char` (`Str`),
* the Mongo coupon collection as a `List StoredCoupon` (insertion order =
  store-native order; `find` filters, `find_one`/`update_one`/`delete_one`
  act on the first match),
* the in-memory `admin_sessions` dict as an association list,
* `HTTPException` as an explicit error value carrying status and detail,
* randomness (`secrets.token_urlsafe`, `uuid.uuid4`) and the clock
  (`datetime.now`) as explicit parameters of the handlers.
-/

/-- Python `str` modelled as a list of characters. -/
abbrev Str := List Char

/-- Model of `HTTPException(status_code, detail)` as raised by the handlers. -/
structure ApiErr where
  status : Nat
  detail : Str
deriving DecidableEq, Repr

/-- Error `HTTPException(status_code=401, detail="Not authenticated")`. -/
def errNotAuthenticated : ApiErr := ⟨401, "Not authenticated".toList⟩

/-- Error `HTTPException(status_code=401, detail="Invalid or expired token")`. -/
def errInvalidToken : ApiErr := ⟨401, "Invalid or expired token".toList⟩

/-- Error `HTTPException(status_code=401, detail="Invalid credentials")`. -/
def errInvalidCredentials : ApiErr := ⟨401, "Invalid credentials".toList⟩

/-- Error `HTTPException(status_code=404, detail="Coupon not found")`. -/
def errCouponNotFound : ApiErr := ⟨404, "Coupon not found".toList⟩

/-- Error `HTTPException(status_code=400, detail="File must be an image")`. -/
def errFileMustBeImage : ApiErr := ⟨400, "File must be an image".toList⟩

/-- An unhandled Python exception (e.g. `ValueError` from
`datetime.fromisoformat` on a malformed stored string), surfaced by the
framework as a generic 500 server error. -/
def errInternal : ApiErr := ⟨500, "Internal Server Error".toList⟩

/-! ## Base64 (`base64.b64encode`, `secrets.token_urlsafe`) -/

/-- The standard base64 alphabet used by Python's `base64.b64encode`. -/
def b64Alphabet : List Char :=
  "ABCDEFGHIJKLMNOPQRSTUVWXYZabcdefghijklmnopqrstuvwxyz0123456789+/".toList

/-- The URL-safe base64 alphabet used by `secrets.token_urlsafe`. -/
def b64uAlphabet : List Char :=
  "ABCDEFGHIJKLMNOPQRSTUVWXYZabcdefghijklmnopqrstuvwxyz0123456789-_".toList

/-- Sextet value `s` (< 64) to its standard-alphabet character. -/
def b64Char (s : Nat) : Char := b64Alphabet.getD s '='

/-- Sextet value `s` (< 64) to its URL-safe-alphabet character. -/
def b64uChar (s : Nat) : Char := b64uAlphabet.getD s '='

/-- Inverse of `b64Char` (helper used by the decoding direction). -/
def b64Val (c : Char) : Nat := b64Alphabet.indexOf c

/-- Inverse of `b64uChar`. -/
def b64uVal (c : Char) : Nat := b64uAlphabet.indexOf c

/-- Model of `base64.b64encode`: bytes to padded standard base64 characters.
Each group of 3 bytes becomes 4 sextet characters; a trailing group of 2
or 1 bytes is padded with `'='`. -/
def b64Encode : List Nat → List Char
  | a :: b :: c :: rest =>
    b64Char (a / 4) :: b64Char ((a % 4) * 16 + b / 16) ::
    b64Char ((b % 16) * 4 + c / 64) :: b64Char (c % 64) :: b64Encode rest
  | [a, b] =>
    [b64Char (a / 4), b64Char ((a % 4) * 16 + b / 16), b64Char ((b % 16) * 4), '=']
  | [a] =>
    [b64Char (a / 4), b64Char ((a % 4) * 16), '=', '=']
  | [] => []

/-- Decoder for padded standard base64 (used to state that the data-URL
encoding is lossless: it is a left inverse of `b64Encode`). -/
def b64Decode : List Char → List Nat
  | c1 :: c2 :: c3 :: c4 :: rest =>
    if c3 = '=' then
      [b64Val c1 * 4 + b64Val c2 / 16]
    else if c4 = '=' then
      [b64Val c1 * 4 + b64Val c2 / 16,
       (b64Val c2 % 16) * 16 + b64Val c3 / 4]
    else
      (b64Val c1 * 4 + b64Val c2 / 16) ::
      ((b64Val c2 % 16) * 16 + b64Val c3 / 4) ::
      ((b64Val c3 % 4) * 64 + b64Val c4) :: b64Decode rest
  | _ => []

/-- Model of `secrets.token_urlsafe`: URL-safe base64 of the random bytes with the
`'='` padding stripped. -/
def b64uEncode : List Nat → List Char
  | a :: b :: c :: rest =>
    b64uChar (a / 4) :: b64uChar ((a % 4) * 16 + b / 16) ::
    b64uChar ((b % 16) * 4 + c / 64) :: b64uChar (c % 64) :: b64uEncode rest
  | [a, b] =>
    [b64uChar (a / 4), b64uChar ((a % 4) * 16 + b / 16), b64uChar ((b % 16) * 4)]
  | [a] =>
    [b64uChar (a / 4), b64uChar ((a % 4) * 16)]
  | [] => []

/-- Decoder for padless URL-safe base64 (left inverse of `b64uEncode`,
used to show distinct random byte strings yield distinct tokens). -/
def b64uDecode : List Char → List Nat
  | [c1, c2] => [b64uVal c1 * 4 + b64uVal c2 / 16]
  | [c1, c2, c3] =>
    [b64uVal c1 * 4 + b64uVal c2 / 16,
     (b64uVal c2 % 16) * 16 + b64uVal c3 / 4]
  | c1 :: c2 :: c3 :: c4 :: rest =>
    (b64uVal c1 * 4 + b64uVal c2 / 16) ::
    ((b64uVal c2 % 16) * 16 + b64uVal c3 / 4) ::
    ((b64uVal c3 % 4) * 64 + b64uVal c4) :: b64uDecode rest
  | _ => []

theorem b64Val_b64Char : ∀ s : Nat, s < 64 → b64Val (b64Char s) = s := by decide

theorem b64Char_ne_eq : ∀ s : Nat, s < 64 → b64Char s ≠ '=' := by decide

theorem b64uVal_b64uChar : ∀ s : Nat, s < 64 → b64uVal (b64uChar s) = s := by decide

/-- Characters a token may contain: letters, digits, `'-'`, `'_'`. -/
def urlTokenChar (c : Char) : Bool := c.isAlphanum || c = '-' || c = '_'

theorem urlTokenChar_b64uChar : ∀ s : Nat, s < 64 → urlTokenChar (b64uChar s) = true := by
  decide

/-- Standard base64 decoding is a left inverse of encoding on byte lists. -/
theorem b64Decode_b64Encode :
    ∀ bs : List Nat, (∀ x ∈ bs, x < 256) → b64Decode (b64Encode bs) = bs
  | [], _ => by simp [b64Encode, b64Decode]
  | [a], h => by
    have ha : a < 256 := h a (by simp)
    simp only [b64Encode, b64Decode, if_true]
    rw [b64Val_b64Char _ (by omega), b64Val_b64Char _ (by omega)]
    simp only [List.cons.injEq, and_true]
    omega
  | [a, b], h => by
    have ha : a < 256 := h a (by simp)
    have hb : b < 256 := h b (by simp)
    simp only [b64Encode, b64Decode]
    rw [if_neg (b64Char_ne_eq _ (by omega)), if_true]
    rw [b64Val_b64Char _ (by omega), b64Val_b64Char _ (by omega),
      b64Val_b64Char _ (by omega)]
    simp only [List.cons.injEq, and_true]
    omega
  | a :: b :: c :: rest, h => by
    have ha : a < 256 := h a (by simp)
    have hb : b < 256 := h b (by simp)
    have hc : c < 256 := h c (by simp)
    have ih := b64Decode_b64Encode rest (fun x hx => h x (by simp [hx]))
    simp only [b64Encode, b64Decode]
    rw [if_neg (b64Char_ne_eq _ (by omega)), if_neg (b64Char_ne_eq _ (by omega))]
    rw [b64Val_b64Char _ (by omega), b64Val_b64Char _ (by omega),
      b64Val_b64Char _ (by omega), b64Val_b64Char _ (by omega)]
    simp only [ih, List.cons.injEq, and_true]
    omega

/-- Padless URL-safe base64 decoding is a left inverse of encoding. -/
theorem b64uDecode_b64uEncode :
    ∀ bs : List Nat, (∀ x ∈ bs, x < 256) → b64uDecode (b64uEncode bs) = bs
  | [], _ => by simp [b64uEncode, b64uDecode]
  | [a], h => by
    have ha : a < 256 := h a (by simp)
    simp only [b64uEncode, b64uDecode]
    rw [b64uVal_b64uChar _ (by omega), b64uVal_b64uChar _ (by omega)]
    simp only [List.cons.injEq, and_true]
    omega
  | [a, b], h => by
    have ha : a < 256 := h a (by simp)
    have hb : b < 256 := h b (by simp)
    simp only [b64uEncode, b64uDecode]
    rw [b64uVal_b64uChar _ (by omega), b64uVal_b64uChar _ (by omega),
      b64uVal_b64uChar _ (by omega)]
    simp only [List.cons.injEq, and_true]
    omega
  | a :: b :: c :: rest, h => by
    have ha : a < 256 := h a (by simp)
    have hb : b < 256 := h b (by simp)
    have hc : c < 256 := h c (by simp)
    have ih := b64uDecode_b64uEncode rest (fun x hx => h x (by simp [hx]))
    match hrest : b64uEncode rest with
    | [] =>
      rw [hrest] at ih
      simp only [b64uEncode, hrest, b64uDecode]
      rw [b64uVal_b64uChar _ (by omega), b64uVal_b64uChar _ (by omega),
        b64uVal_b64uChar _ (by omega), b64uVal_b64uChar _ (by omega)]
      simp only [b64uDecode] at ih
      simp only [List.cons.injEq, ih, and_true]
      omega
    | c1 :: cs =>
      rw [hrest] at ih
      simp only [b64uEncode, hrest, b64uDecode]
      rw [b64uVal_b64uChar _ (by omega), b64uVal_b64uChar _ (by omega),
        b64uVal_b64uChar _ (by omega), b64uVal_b64uChar _ (by omega)]
      simp only [List.cons.injEq, ih, and_true]
      omega

/-- Model of `secrets.token_urlsafe`: the issued session token, as a function of the
random bytes drawn from the OS entropy source (modelled as an explicit
argument; `secrets.token_urlsafe(32)` draws 32 bytes). -/
def tokenUrlsafe (entropy : List Nat) : Str := b64uEncode entropy

/-- Every character of a token is URL-safe (letter, digit, `'-'` or `'_'`). -/
theorem urlTokenChar_of_mem_tokenUrlsafe :
    ∀ entropy : List Nat, (∀ x ∈ entropy, x < 256) →
      ∀ c ∈ tokenUrlsafe entropy, urlTokenChar c = true
  | [], _ => by simp [tokenUrlsafe, b64uEncode]
  | [a], h => by
    have ha : a < 256 := h a (by simp)
    simp only [tokenUrlsafe, b64uEncode, List.mem_cons, List.not_mem_nil, or_false]
    rintro c (rfl | rfl) <;> exact urlTokenChar_b64uChar _ (by omega)
  | [a, b], h => by
    have ha : a < 256 := h a (by simp)
    have hb : b < 256 := h b (by simp)
    simp only [tokenUrlsafe, b64uEncode, List.mem_cons, List.not_mem_nil, or_false]
    rintro c (rfl | rfl | rfl) <;> exact urlTokenChar_b64uChar _ (by omega)
  | a :: b :: c :: rest, h => by
    have ha : a < 256 := h a (by simp)
    have hb : b < 256 := h b (by simp)
    have hc : c < 256 := h c (by simp)
    have ih := urlTokenChar_of_mem_tokenUrlsafe rest (fun x hx => h x (by simp [hx]))
    simp only [tokenUrlsafe, b64uEncode, List.mem_cons]
    rintro d (rfl | rfl | rfl | rfl | hd)
    · exact urlTokenChar_b64uChar _ (by omega)
    · exact urlTokenChar_b64uChar _ (by omega)
    · exact urlTokenChar_b64uChar _ (by omega)
    · exact urlTokenChar_b64uChar _ (by omega)
    · exact ih d hd

/-- Distinct random byte strings yield distinct tokens. -/
theorem tokenUrlsafe_injective (e1 e2 : List Nat)
    (h1 : ∀ x ∈ e1, x < 256) (h2 : ∀ x ∈ e2, x < 256)
    (hne : e1 ≠ e2) : tokenUrlsafe e1 ≠ tokenUrlsafe e2 := by
  intro h
  apply hne
  have := congrArg b64uDecode h
  simp only [tokenUrlsafe] at this
  rwa [b64uDecode_b64uEncode e1 h1, b64uDecode_b64uEncode e2 h2] at this

/-! ## Python `str.replace(pat, "")` -/

/-- Python `s.replace(pat, "")` for a non-empty `pat`: scans left to right
and deletes every non-overlapping occurrence of `pat`.  The handler calls
it as `authorization.replace("Bearer ", "")`. -/
def stripAll (pat : Str) (s : Str) : Str :=
  if h : pat ≠ [] ∧ pat.isPrefixOf s then stripAll pat (s.drop pat.length)
  else
    match s with
    | [] => []
    | c :: cs => c :: stripAll pat cs
termination_by s.length
decreasing_by
  · rcases h with ⟨hpat, hpre⟩
    have hle : pat.length ≤ s.length := (List.isPrefixOf_iff_prefix.mp hpre).length_le
    have hpos : 0 < pat.length := List.length_pos.mpr hpat
    simp only [List.length_drop]
    omega
  · simp

/-- Deleting occurrences of `pat` from `pat ++ rest` first deletes the
leading copy of `pat`. -/
theorem stripAll_append (pat rest : Str) (hpat : pat ≠ []) :
    stripAll pat (pat ++ rest) = stripAll pat rest := by
  rw [stripAll]
  rw [dif_pos ⟨hpat, List.isPrefixOf_iff_prefix.mpr (List.prefix_append pat rest)⟩]
  rw [List.drop_left]

/-- A string with no occurrence of `pat` is left unchanged. -/
theorem stripAll_of_not_infix (pat : Str) : ∀ s : Str, ¬ pat <:+: s → stripAll pat s = s
  | [], h => by
    rw [stripAll]
    rw [dif_neg]
    rintro ⟨hpat, hpre⟩
    exact h (List.isPrefixOf_iff_prefix.mp hpre).isInfix
  | c :: cs, h => by
    rw [stripAll]
    rw [dif_neg]
    · have ih := stripAll_of_not_infix pat cs (fun hi => h (List.infix_cons hi))
      simp [ih]
    · rintro ⟨hpat, hpre⟩
      exact h (List.isPrefixOf_iff_prefix.mp hpre).isInfix

/-- The pattern `"Bearer "` never occurs inside a string of URL-safe token characters
(tokens contain no space). -/
theorem bearer_not_infix_of_urlTokenChars (t : Str)
    (ht : ∀ c ∈ t, urlTokenChar c = true) : ¬ ("Bearer ".toList <:+: t) := by
  intro hinf
  have hsp : ' ' ∈ t := hinf.subset (by decide)
  have := ht ' ' hsp
  simp [urlTokenChar] at this

/-! ## Timezone-aware datetimes and ISO-8601 round-tripping

`datetime.now(timezone.utc)` produces a timezone-aware datetime; the
handlers persist it with `.isoformat()` and read it back with
`datetime.fromisoformat`.  We model an aware datetime structurally, with
the UTC offset in minutes. -/

/-- A timezone-aware `datetime` value (microsecond precision, fixed UTC
offset in minutes). -/
structure DateTime where
  year : Nat
  month : Nat
  day : Nat
  hour : Nat
  minute : Nat
  second : Nat
  microsecond : Nat
  offMin : Int
deriving DecidableEq, Repr

/-- Field ranges Python's `datetime` guarantees (offsets are strictly
between -24h and +24h). -/
def DateTime.valid (t : DateTime) : Prop :=
  1 ≤ t.year ∧ t.year ≤ 9999 ∧ 1 ≤ t.month ∧ t.month ≤ 12 ∧
  1 ≤ t.day ∧ t.day ≤ 31 ∧ t.hour ≤ 23 ∧ t.minute ≤ 59 ∧ t.second ≤ 59 ∧
  t.microsecond < 1000000 ∧ t.offMin.natAbs ≤ 1439

instance (t : DateTime) : Decidable t.valid := by
  unfold DateTime.valid
  infer_instance

/-- Property of `datetime.now(timezone.utc)`: its offset is zero. -/
def DateTime.isUtc (t : DateTime) : Prop := t.offMin = 0

/-- The character for decimal digit `d`. -/
def digitChar : Nat → Char
  | 0 => '0' | 1 => '1' | 2 => '2' | 3 => '3' | 4 => '4'
  | 5 => '5' | 6 => '6' | 7 => '7' | 8 => '8' | _ => '9'

/-- Zero-padded fixed-width decimal rendering (`%04d`-style), most
significant digit first. -/
def pad : Nat → Nat → Str
  | 0, _ => []
  | w + 1, n => digitChar (n / 10 ^ w) :: pad w (n % 10 ^ w)

/-- Read exactly `w` decimal digits, returning the value (over an
accumulator) and the rest of the string. -/
def takeDigits : Nat → Str → Nat → Option (Nat × Str)
  | 0, s, acc => some (acc, s)
  | _ + 1, [], _ => none
  | w + 1, c :: cs, acc =>
    if c.isDigit then takeDigits w cs (acc * 10 + (c.toNat - 48)) else none

/-- Consume one expected literal character. -/
def expectChar (c : Char) : Str → Option Str
  | d :: cs => if d = c then some cs else none
  | [] => none

theorem digitChar_isDigit : ∀ d : Nat, d < 10 → (digitChar d).isDigit = true := by decide

theorem digitChar_val : ∀ d : Nat, d < 10 → (digitChar d).toNat - 48 = d := by decide

/-- Reading `w` digits off `pad w n ++ rest` yields `n` and `rest`. -/
theorem takeDigits_pad :
    ∀ (w n acc : Nat) (rest : Str), n < 10 ^ w →
      takeDigits w (pad w n ++ rest) acc = some (acc * 10 ^ w + n, rest)
  | 0, n, acc, rest, h => by
    have : n = 0 := by simpa using Nat.lt_one_iff.mp (by simpa using h)
    simp [pad, takeDigits, this]
  | w + 1, n, acc, rest, h => by
    have hq : n / 10 ^ w < 10 := by
      rw [Nat.div_lt_iff_lt_mul (Nat.pos_pow_of_pos w (by norm_num))]
      calc n < 10 ^ (w + 1) := h
        _ = 10 * 10 ^ w := by ring
    have hr : n % 10 ^ w < 10 ^ w := Nat.mod_lt _ (Nat.pos_pow_of_pos w (by norm_num))
    have key : ∀ q r : Nat, 10 ^ w * q + r = n →
        (acc * 10 + q) * 10 ^ w + r = acc * 10 ^ (w + 1) + n := by
      intro q r hn
      rw [← hn]; ring
    simp only [pad, takeDigits, List.cons_append, List.append_eq,
      digitChar_isDigit _ hq, if_true]
    rw [digitChar_val _ hq, takeDigits_pad w (n % 10 ^ w) _ rest hr]
    rw [key (n / 10 ^ w) (n % 10 ^ w) (Nat.div_add_mod n (10 ^ w))]

theorem expectChar_cons (c : Char) (rest : Str) : expectChar c (c :: rest) = some rest := by
  simp [expectChar]

/-- The `utcoffset` part of `datetime.isoformat()`: `±HH:MM`. -/
def offsetStr (off : Int) : Str :=
  (if off < 0 then ['-'] else ['+']) ++
    pad 2 (off.natAbs / 60) ++ [':'] ++ pad 2 (off.natAbs % 60)

/-- Model of `datetime.isoformat()` on an aware datetime:
`YYYY-MM-DDTHH:MM:SS[.ffffff]±HH:MM` (the microsecond part is omitted
exactly when it is zero). -/
def isoStr (t : DateTime) : Str :=
  pad 4 t.year ++ ['-'] ++ pad 2 t.month ++ ['-'] ++ pad 2 t.day ++ ['T'] ++
  pad 2 t.hour ++ [':'] ++ pad 2 t.minute ++ [':'] ++ pad 2 t.second ++
  (if t.microsecond = 0 then [] else '.' :: pad 6 t.microsecond) ++
  offsetStr t.offMin

/-- The fractional-seconds part of `datetime.fromisoformat`: a `'.'`
followed by six digits, or nothing (microsecond 0). -/
def parseFrac : Str → Option (Nat × Str)
  | '.' :: rest => takeDigits 6 rest 0
  | s => some (0, s)

/-- The offset part of `datetime.fromisoformat`: `±HH:MM` ending the
string. -/
def parseOffset : Str → Option Int
  | '+' :: rest => do
    let (oh, rest) ← takeDigits 2 rest 0
    let rest ← expectChar ':' rest
    let (om, rest) ← takeDigits 2 rest 0
    if rest = [] then some ((oh * 60 + om : Nat) : Int) else none
  | '-' :: rest => do
    let (oh, rest) ← takeDigits 2 rest 0
    let rest ← expectChar ':' rest
    let (om, rest) ← takeDigits 2 rest 0
    if rest = [] then some (-((oh * 60 + om : Nat) : Int)) else none
  | _ => none

/-- Model of `datetime.fromisoformat` restricted to the strings `isoformat`
produces (the only shape this backend ever stores): fixed-width date and
time fields, optional 6-digit fractional part, mandatory `±HH:MM` offset. -/
def parseIso (s : Str) : Option DateTime := do
  let (y, s) ← takeDigits 4 s 0
  let s ← expectChar '-' s
  let (mo, s) ← takeDigits 2 s 0
  let s ← expectChar '-' s
  let (d, s) ← takeDigits 2 s 0
  let s ← expectChar 'T' s
  let (h, s) ← takeDigits 2 s 0
  let s ← expectChar ':' s
  let (mi, s) ← takeDigits 2 s 0
  let s ← expectChar ':' s
  let (sec, s) ← takeDigits 2 s 0
  let (us, s) ← parseFrac s
  let off ← parseOffset s
  some ⟨y, mo, d, h, mi, sec, us, off⟩

theorem takeDigits_pad_nil (w n acc : Nat) (h : n < 10 ^ w) :
    takeDigits w (pad w n) acc = some (acc * 10 ^ w + n, []) := by
  have := takeDigits_pad w n acc [] h
  rwa [List.append_nil] at this

theorem parseOffset_offsetStr (off : Int) (hb : off.natAbs ≤ 1439) :
    parseOffset (offsetStr off) = some off := by
  have hoh : off.natAbs / 60 < 10 ^ 2 := by norm_num; omega
  have hom : off.natAbs % 60 < 10 ^ 2 := by norm_num; omega
  by_cases hoff : off < 0 <;>
    simp only [offsetStr, hoff, if_true, if_false, reduceIte, List.cons_append,
      List.nil_append, List.append_assoc, parseOffset,
      takeDigits_pad 2 _ 0 _ hoh, takeDigits_pad_nil 2 _ 0 hom,
      Option.bind_eq_bind, Option.some_bind, expectChar_cons,
      Nat.zero_mul, Nat.zero_add, Option.some.injEq] <;>
    omega

theorem parseFrac_zero (rest : Str) :
    parseFrac ('+' :: rest) = some (0, '+' :: rest) ∧
      parseFrac ('-' :: rest) = some (0, '-' :: rest) := by
  constructor <;> rfl

theorem parseFrac_pad (us : Nat) (hus : us < 10 ^ 6) (rest : Str) :
    parseFrac ('.' :: (pad 6 us ++ rest)) = some (us, rest) := by
  simp only [parseFrac, takeDigits_pad 6 _ 0 _ hus, Nat.zero_mul, Nat.zero_add]

/-- The `±HH:MM` offset string starts with `'+'` or `'-'`. -/
theorem offsetStr_head (off : Int) :
    offsetStr off = (if off < 0 then '-' else '+') :: (pad 2 (off.natAbs / 60) ++ ':' :: pad 2 (off.natAbs % 60)) := by
  by_cases hoff : off < 0 <;> simp [offsetStr, hoff]

set_option maxHeartbeats 1000000 in
/-- Parsing inverts rendering: `datetime.fromisoformat` inverts `datetime.isoformat` exactly (full
microsecond precision, offset preserved) on valid aware datetimes. -/
theorem parseIso_isoStr (t : DateTime) (hv : t.valid) : parseIso (isoStr t) = some t := by
  obtain ⟨y, mo, d, h, mi, s, us, off⟩ := t
  simp only [DateTime.valid] at hv
  obtain ⟨h1, h2, h3, h4, h5, h6, h7, h8, h9, h10, h11⟩ := hv
  have hy : y < 10 ^ 4 := by norm_num; omega
  have hmo : mo < 10 ^ 2 := by norm_num; omega
  have hd : d < 10 ^ 2 := by norm_num; omega
  have hh : h < 10 ^ 2 := by norm_num; omega
  have hmi : mi < 10 ^ 2 := by norm_num; omega
  have hs : s < 10 ^ 2 := by norm_num; omega
  have hus : us < 10 ^ 6 := by norm_num; omega
  have hfrac :
      parseFrac ((if us = 0 then [] else '.' :: pad 6 us) ++ offsetStr off) =
        some (us, offsetStr off) := by
    by_cases husz : us = 0
    · rw [offsetStr_head off]
      by_cases hoff : off < 0 <;> simp [husz, hoff, parseFrac]
    · rw [if_neg husz, List.cons_append]
      exact parseFrac_pad us hus _
  simp only [isoStr, List.append_assoc, List.cons_append, List.nil_append, parseIso,
    takeDigits_pad 4 _ 0 _ hy, takeDigits_pad 2 _ 0 _ hmo, takeDigits_pad 2 _ 0 _ hd,
    takeDigits_pad 2 _ 0 _ hh, takeDigits_pad 2 _ 0 _ hmi, takeDigits_pad 2 _ 0 _ hs,
    expectChar_cons, Option.bind_eq_bind, Option.some_bind,
    Nat.zero_mul, Nat.zero_add, hfrac, parseOffset_offsetStr off h11]

/-! ## Data model -/

/-- A coupon document as persisted in the `coupons` collection:
`created_at` is stored as an ISO-8601 string (`doc['created_at'] =
doc['created_at'].isoformat()` on create). -/
structure StoredCoupon where
  id : Str
  store_name : Str
  logo_url : Option Str
  title : Str
  code : Str
  description : Str
  category : Str
  expiry_date : Str
  featured : Bool
  created_at : Str
deriving DecidableEq, Repr

/-- The `Coupon` pydantic response model: `created_at` is a structured
(timezone-aware) datetime. -/
structure Coupon where
  id : Str
  store_name : Str
  logo_url : Option Str
  title : Str
  code : Str
  description : Str
  category : Str
  expiry_date : Str
  featured : Bool
  created_at : DateTime
deriving DecidableEq, Repr

/-- The `CouponCreate` request model (validated values; `logo_url`
defaults to `None`, `featured` to `False`). -/
structure CouponCreate where
  store_name : Str
  logo_url : Option Str
  title : Str
  code : Str
  description : Str
  category : Str
  expiry_date : Str
  featured : Bool
deriving DecidableEq, Repr

/-- The `CouponUpdate` pydantic model after validation: every field is
declared `Optional[...] = None`, so a field holds `none` exactly when the
request body omitted it **or** set it to `null`. -/
structure CouponUpdate where
  store_name : Option Str
  logo_url : Option Str
  title : Option Str
  code : Option Str
  description : Option Str
  category : Option Str
  expiry_date : Option Str
  featured : Option Bool
deriving DecidableEq, Repr

/-- A field of the raw JSON body of `PUT /admin/coupons/{id}`: it can be
absent, an explicit `null`, or a value — the wire format does distinguish
all three. -/
inductive JsonField (α : Type) where
  | absent
  | null
  | val (v : α)
deriving DecidableEq, Repr

/-- Pydantic validation of one `Optional[...] = None` field: an absent
field takes the default `None`, and an explicit `null` also validates to
`None` — the two become indistinguishable after validation. -/
def JsonField.validate : JsonField α → Option α
  | .absent => none
  | .null => none
  | .val v => some v

/-- The raw JSON body of an update request. -/
structure CouponUpdateBody where
  store_name : JsonField Str
  logo_url : JsonField Str
  title : JsonField Str
  code : JsonField Str
  description : JsonField Str
  category : JsonField Str
  expiry_date : JsonField Str
  featured : JsonField Bool
deriving DecidableEq, Repr

/-- Validating an update body into the `CouponUpdate` model. -/
def validateUpdate (b : CouponUpdateBody) : CouponUpdate :=
  ⟨b.store_name.validate, b.logo_url.validate, b.title.validate, b.code.validate,
   b.description.validate, b.category.validate, b.expiry_date.validate,
   b.featured.validate⟩

/-- The `coupons` collection, in store-native (insertion) order. -/
abbrev CouponStore := List StoredCoupon

/-- The value stored under a token in `admin_sessions`. -/
structure SessionData where
  username : Str
  logged_in_at : DateTime
deriving DecidableEq, Repr

/-- The in-memory `admin_sessions` dict, as an association list keyed by
token. -/
abbrev Sessions := List (Str × SessionData)

/-- Parsing a stored document into the response model:
`coupon['created_at'] = datetime.fromisoformat(coupon['created_at'])`.
`none` models the `ValueError` the parse would raise. -/
def parseDoc (d : StoredCoupon) : Option Coupon :=
  (parseIso d.created_at).map fun ts =>
    ⟨d.id, d.store_name, d.logo_url, d.title, d.code, d.description, d.category,
     d.expiry_date, d.featured, ts⟩

/-- The `for coupon in coupons:` timestamp-parsing loop of `get_coupons`:
parses every retrieved document, propagating a parse failure. -/
def parseAll : List StoredCoupon → Option (List Coupon)
  | [] => some []
  | d :: rest => do
    let c ← parseDoc d
    let cs ← parseAll rest
    some (c :: cs)

/-! ## Auth gate (`admin_login`, `verify_admin_token`) -/

/-- Handler for `POST /admin/login`.  The configured credentials (`ADMIN_USERNAME`,
`ADMIN_PASSWORD`) and the random bytes behind `secrets.token_urlsafe(32)`
are explicit parameters.  On success the freshly minted token is
registered in `admin_sessions`; the handler returns
`AdminLoginResponse(token, message)`. -/
def admin_login (adminU adminP : Str) (username password : Str)
    (entropy : List Nat) (now : DateTime) (sessions : Sessions) :
    Except ApiErr (Str × Str) × Sessions :=
  if username = adminU ∧ password = adminP then
    let token := tokenUrlsafe entropy
    (.ok (token, "Login successful".toList), sessions ++ [(token, ⟨adminU, now⟩)])
  else
    (.error errInvalidCredentials, sessions)

/-- Model of `verify_admin_token`: requires a header that is present, non-empty and
starts with `"Bearer "`; the candidate token is
`authorization.replace("Bearer ", "")` — note that Python's `str.replace`
deletes **every** occurrence of `"Bearer "`, not only the prefix. -/
def verify_admin_token (sessions : Sessions) (authorization : Option Str) :
    Except ApiErr Str :=
  match authorization with
  | none => .error errNotAuthenticated
  | some a =>
    if a = [] ∨ ¬ ("Bearer ".toList <+: a) then .error errNotAuthenticated
    else
      let token := stripAll "Bearer ".toList a
      if token ∈ sessions.map Prod.fst then .ok token
      else .error errInvalidToken

/-! ## Coupon repository / route handlers -/

/-- The Mongo query dict built by `get_coupons`: `if category:` tests
string truthiness (so `""` adds no filter), while `if featured is not
None:` tests presence only. -/
def couponQuery (category : Option Str) (featured : Option Bool) :
    Option Str × Option Bool :=
  ((match category with
    | some c => if c ≠ [] then some c else none
    | none => none),
   featured)

/-- A document matches the query dict (exact match on each present key). -/
def matchesFilter (q : Option Str × Option Bool) (d : StoredCoupon) : Bool :=
  (match q.1 with | some c => decide (d.category = c) | none => true) &&
  (match q.2 with | some f => decide (d.featured = f) | none => true)

/-- Python's `str.lower()`. -/
def lowerStr (s : Str) : Str := s.map Char.toLower

/-- The in-process search filter: case-insensitive substring match against
`store_name`, `title` or `category`. -/
def matchesSearch (s : Str) (c : Coupon) : Bool :=
  decide (lowerStr s <:+: lowerStr c.store_name) ||
  decide (lowerStr s <:+: lowerStr c.title) ||
  decide (lowerStr s <:+: lowerStr c.category)

/-- Handler for `GET /coupons`: store-level filtering (capped at 1000 records by
`.to_list(1000)`), then timestamp parsing, then the `if search:` filter. -/
def get_coupons (store : CouponStore) (category search : Option Str)
    (featured : Option Bool) : Except ApiErr (List Coupon) :=
  let docs := (store.filter (matchesFilter (couponQuery category featured))).take 1000
  match parseAll docs with
  | none => .error errInternal
  | some cs =>
    .ok (match search with
         | some s => if s ≠ [] then cs.filter (matchesSearch s) else cs
         | none => cs)

/-- Handler for `GET /coupons/{id}` (`find_one` returns the first match). -/
def get_coupon (store : CouponStore) (coupon_id : Str) : Except ApiErr Coupon :=
  match store.find? (fun d => decide (d.id = coupon_id)) with
  | none => .error errCouponNotFound
  | some d =>
    match parseDoc d with
    | none => .error errInternal
    | some c => .ok c

/-- Handler for `POST /admin/coupons`: the generated `uuid4` id and `created_at =
datetime.now(timezone.utc)` are explicit parameters; the document is
persisted with `created_at` serialised by `isoformat()`. -/
def create_coupon (sessions : Sessions) (authorization : Option Str)
    (coupon : CouponCreate) (genId : Str) (now : DateTime) (store : CouponStore) :
    Except ApiErr Coupon × CouponStore :=
  match verify_admin_token sessions authorization with
  | .error e => (.error e, store)
  | .ok _ =>
    let obj : Coupon :=
      ⟨genId, coupon.store_name, coupon.logo_url, coupon.title, coupon.code,
       coupon.description, coupon.category, coupon.expiry_date, coupon.featured, now⟩
    let doc : StoredCoupon :=
      ⟨genId, coupon.store_name, coupon.logo_url, coupon.title, coupon.code,
       coupon.description, coupon.category, coupon.expiry_date, coupon.featured,
       isoStr now⟩
    (.ok obj, store ++ [doc])

/-- Model of `update_data = \x7bk: v for k, v in coupon_update.model_dump().items() if
v is not None}` applied as a `$set`: each non-`None` field overwrites the
document's field, the rest stay. -/
def applyUpdate (u : CouponUpdate) (d : StoredCoupon) : StoredCoupon :=
  { d with
    store_name := u.store_name.getD d.store_name
    logo_url := match u.logo_url with | some v => some v | none => d.logo_url
    title := u.title.getD d.title
    code := u.code.getD d.code
    description := u.description.getD d.description
    category := u.category.getD d.category
    expiry_date := u.expiry_date.getD d.expiry_date
    featured := u.featured.getD d.featured }

/-- Model of `if update_data:` — at least one field survived the `is not None`
filter. -/
def hasUpdates (u : CouponUpdate) : Bool :=
  u.store_name.isSome || u.logo_url.isSome || u.title.isSome || u.code.isSome ||
  u.description.isSome || u.category.isSome || u.expiry_date.isSome ||
  u.featured.isSome

/-- Model of `update_one` with a `$set` document: modifies the first
matching document only. -/
def updateFirst (store : CouponStore) (cid : Str) (u : CouponUpdate) : CouponStore :=
  match store with
  | [] => []
  | d :: rest =>
    if d.id = cid then applyUpdate u d :: rest else d :: updateFirst rest cid u

/-- The re-fetch at the end of `update_coupon` (`updated_coupon =
find_one(...)` followed by the timestamp parse).  A missing document or a
parse failure would raise (`AttributeError` / `ValueError`), surfaced as
a 500. -/
def readBack (store : CouponStore) (coupon_id : Str) : Except ApiErr Coupon :=
  match store.find? (fun d => decide (d.id = coupon_id)) with
  | none => .error errInternal
  | some d =>
    match parseDoc d with
    | none => .error errInternal
    | some c => .ok c

/-- Handler for `PUT /admin/coupons/{id}`. -/
def update_coupon (sessions : Sessions) (authorization : Option Str)
    (coupon_id : Str) (coupon_update : CouponUpdate) (store : CouponStore) :
    Except ApiErr Coupon × CouponStore :=
  match verify_admin_token sessions authorization with
  | .error e => (.error e, store)
  | .ok _ =>
    match store.find? (fun d => decide (d.id = coupon_id)) with
    | none => (.error errCouponNotFound, store)
    | some _ =>
      let newStore :=
        if hasUpdates coupon_update then updateFirst store coupon_id coupon_update
        else store
      (readBack newStore coupon_id, newStore)

/-- Model of `delete_one` on the id filter: removes the first matching document and
reports `deleted_count`. -/
def deleteFirst (store : CouponStore) (cid : Str) : CouponStore × Nat :=
  match store with
  | [] => ([], 0)
  | d :: rest =>
    if d.id = cid then (rest, 1)
    else
      let r := deleteFirst rest cid
      (d :: r.1, r.2)

/-- Handler for `DELETE /admin/coupons/{id}`. -/
def delete_coupon (sessions : Sessions) (authorization : Option Str)
    (coupon_id : Str) (store : CouponStore) : Except ApiErr Str × CouponStore :=
  match verify_admin_token sessions authorization with
  | .error e => (.error e, store)
  | .ok _ =>
    let r := deleteFirst store coupon_id
    if r.2 = 0 then (.error errCouponNotFound, r.1)
    else (.ok "Coupon deleted successfully".toList, r.1)

/-- Handler for `POST /admin/upload-logo`: validates the declared content type, then
returns `data:<content-type>;base64,<data>`; the store is never touched. -/
def upload_logo (sessions : Sessions) (authorization : Option Str)
    (content_type : Option Str) (contents : List Nat) (store : CouponStore) :
    Except ApiErr Str × CouponStore :=
  match verify_admin_token sessions authorization with
  | .error e => (.error e, store)
  | .ok _ =>
    match content_type with
    | none => (.error errFileMustBeImage, store)
    | some ct =>
      if ct = [] ∨ ¬ ("image/".toList <+: ct) then (.error errFileMustBeImage, store)
      else
        (.ok ("data:".toList ++ ct ++ ";base64,".toList ++ b64Encode contents), store)

/-! ## Helper lemmas about the auth gate -/

/-- Stripping `"Bearer "` from `"Bearer " ++ t` gives back `t` whenever
`t` itself contains no `"Bearer "`. -/
theorem stripAll_bearer (t : Str) (h : ¬ ("Bearer ".toList <:+: t)) :
    stripAll "Bearer ".toList ("Bearer ".toList ++ t) = t := by
  rw [stripAll_append _ _ (by decide), stripAll_of_not_infix _ t h]

/-- A registered token that contains no `"Bearer "` substring is accepted
when presented as `Bearer <token>`. -/
theorem verify_ok_of_registered (sessions : Sessions) (t : Str)
    (hmem : t ∈ sessions.map Prod.fst) (hni : ¬ ("Bearer ".toList <:+: t)) :
    verify_admin_token sessions (some ("Bearer ".toList ++ t)) = .ok t := by
  have hpre : "Bearer ".toList <+: ("Bearer ".toList ++ t) := List.prefix_append _ _
  have hne : ("Bearer ".toList ++ t : Str) ≠ [] := by simp
  rw [verify_admin_token]
  rw [if_neg (by push_neg; exact ⟨hne, hpre⟩)]
  rw [stripAll_bearer t hni, if_pos hmem]

/-- The gate `verify_admin_token` only ever fails with one of the two 401 errors. -/
theorem verify_error_cases (sessions : Sessions) (auth : Option Str) (e : ApiErr)
    (hfail : verify_admin_token sessions auth = .error e) :
    e = errNotAuthenticated ∨ e = errInvalidToken := by
  rcases auth with - | a
  · rw [verify_admin_token] at hfail
    exact Or.inl (Except.error.injEq .. ▸ hfail).symm
  · rw [verify_admin_token] at hfail
    by_cases hc : a = [] ∨ ¬ ("Bearer ".toList <+: a)
    · rw [if_pos hc] at hfail
      exact Or.inl (Except.error.injEq .. ▸ hfail).symm
    · rw [if_neg hc] at hfail
      by_cases hm : stripAll "Bearer ".toList a ∈ sessions.map Prod.fst
      · rw [if_pos hm] at hfail
        exact absurd hfail (by simp)
      · rw [if_neg hm] at hfail
        exact Or.inr (Except.error.injEq .. ▸ hfail).symm

/-! ## C1 — authorize -/

/-- C1 (counterexample): the claim "authorize succeeds returning `t`
exactly when the header is `\"Bearer \" ++ t` for a registered `t`, and
fails with `InvalidSession` when the header has the `\"Bearer \"` prefix
but the remainder is not a registered token" is false: with only `"abc"`
registered, the header `"Bearer Bearer abc"` has remainder
`"Bearer abc"`, which is not registered — yet `authorize` succeeds
(returning `"abc"`), because `str.replace` deletes every occurrence of
`"Bearer "`, not just the prefix. -/
theorem C1_counterexample :
    verify_admin_token
        [(("abc".toList : Str), ⟨"raj2151".toList, ⟨2025, 1, 1, 0, 0, 0, 0, 0⟩⟩)]
        (some ("Bearer Bearer abc".toList)) = .ok ("abc".toList) ∧
    "Bearer Bearer abc".toList = "Bearer ".toList ++ "Bearer abc".toList ∧
    ("Bearer abc".toList : Str) ∉
      (([(("abc".toList : Str), ⟨"raj2151".toList, ⟨2025, 1, 1, 0, 0, 0, 0, 0⟩⟩)] :
          Sessions).map Prod.fst) := by
  refine ⟨?_, by decide, by decide⟩
  have h1 : ("Bearer Bearer abc".toList : Str) =
      "Bearer ".toList ++ ("Bearer ".toList ++ "abc".toList) := by decide
  rw [verify_admin_token, if_neg (by decide), h1, stripAll_append _ _ (by decide),
    stripAll_bearer _ (by decide), if_pos (by decide)]

/-- C1 (amended): `authorize` fails with the 401 "Not authenticated"
error when the header is missing or does not start with `"Bearer "` (in
particular a `"Token ..."` header always fails); when the header does
start with `"Bearer "`, the candidate token is obtained by deleting every
occurrence of `"Bearer "` from the header (for any remainder `t` that
does not itself contain `"Bearer "` — e.g. every token minted by login —
this is exactly the remainder after the prefix), and authorize returns it
iff it is registered, otherwise failing with the 401 "Invalid or expired
token" error. -/
theorem C1_authorize_characterization (sessions : Sessions) :
    verify_admin_token sessions none = .error errNotAuthenticated ∧
    (∀ h : Str, ¬ ("Bearer ".toList <+: h) →
      verify_admin_token sessions (some h) = .error errNotAuthenticated) ∧
    (∀ t : Str, ¬ ("Bearer ".toList <:+: t) →
      verify_admin_token sessions (some ("Bearer ".toList ++ t)) =
        if t ∈ sessions.map Prod.fst then .ok t else .error errInvalidToken) ∧
    (∀ h : Str, "Bearer ".toList <+: h →
      verify_admin_token sessions (some h) =
        if stripAll "Bearer ".toList h ∈ sessions.map Prod.fst then
          .ok (stripAll "Bearer ".toList h)
        else .error errInvalidToken) := by
  refine ⟨rfl, ?_, ?_, ?_⟩
  · intro h hpre
    rw [verify_admin_token, if_pos (Or.inr hpre)]
  · intro t hni
    have hpre : "Bearer ".toList <+: ("Bearer ".toList ++ t) := List.prefix_append _ _
    rw [verify_admin_token, if_neg (by push_neg; exact ⟨by simp, hpre⟩),
      stripAll_bearer t hni]
  · intro h hpre
    have hne : h ≠ [] := by
      intro he
      rw [he] at hpre
      exact absurd (List.prefix_nil.mp hpre) (by decide)
    rw [verify_admin_token, if_neg (by push_neg; exact ⟨hne, hpre⟩)]

/-- C1 (witness): the characterization applied to a concrete session
store: a wrong-scheme header fails, `Bearer abc` succeeds for registered
`abc`. -/
theorem C1_witness :
    verify_admin_token
        [(("abc".toList : Str), ⟨"raj2151".toList, ⟨2025, 1, 1, 0, 0, 0, 0, 0⟩⟩)]
        (some ("Token abc".toList)) = .error errNotAuthenticated ∧
    verify_admin_token
        [(("abc".toList : Str), ⟨"raj2151".toList, ⟨2025, 1, 1, 0, 0, 0, 0, 0⟩⟩)]
        (some ("Bearer abc".toList)) = .ok ("abc".toList) := by
  constructor
  · exact (C1_authorize_characterization _).2.1 _ (by decide)
  · have h := (C1_authorize_characterization
      [(("abc".toList : Str), ⟨"raj2151".toList, ⟨2025, 1, 1, 0, 0, 0, 0, 0⟩⟩)]).2.2.1
      ("abc".toList) (by decide)
    rw [if_pos (by decide)] at h
    have he : ("Bearer abc".toList : Str) = "Bearer ".toList ++ "abc".toList := by decide
    rw [he]
    exact h

/-! ## C10 — truthiness of the public list parameters -/

/-- C10: in `get_coupons`, an empty-string `category` (and likewise an
empty-string `search`) behaves exactly as if the parameter were absent,
because `if category:` / `if search:` test Python string truthiness;
`featured=False`, tested only against `None`, is a genuine exact-match
filter — the result is the same as querying the sub-store of non-featured
coupons with no filters at all. -/
theorem C10_truthy_params (store : CouponStore) :
    (∀ search featured, get_coupons store (some []) search featured =
        get_coupons store none search featured) ∧
    (∀ category featured, get_coupons store category (some []) featured =
        get_coupons store category none featured) ∧
    get_coupons store none none (some false) =
      get_coupons (store.filter fun d => !d.featured) none none none := by
  refine ⟨?_, ?_, ?_⟩
  · intro search featured
    simp [get_coupons, couponQuery]
  · intro category featured
    simp [get_coupons]
  · have hfilter : store.filter (matchesFilter ((none : Option Str), some false)) =
        store.filter fun d => !d.featured := by
      apply List.filter_congr
      intro d _
      simp only [matchesFilter]
      cases hdf : d.featured <;> simp [hdf]
    have htrue : matchesFilter ((none : Option Str), (none : Option Bool)) =
        fun _ => true := by
      funext d
      simp [matchesFilter]
    simp only [get_coupons, couponQuery]
    rw [hfilter, htrue, List.filter_true]

/-! ## C3 — public list filtering -/

/-- A parsed coupon copies every field of its document except the parsed
timestamp. -/
theorem parseDoc_fields (d : StoredCoupon) (c : Coupon) (h : parseDoc d = some c) :
    c.id = d.id ∧ c.store_name = d.store_name ∧ c.logo_url = d.logo_url ∧
    c.title = d.title ∧ c.code = d.code ∧ c.description = d.description ∧
    c.category = d.category ∧ c.expiry_date = d.expiry_date ∧
    c.featured = d.featured ∧ parseIso d.created_at = some c.created_at := by
  rw [parseDoc] at h
  cases hp : parseIso d.created_at with
  | none => rw [hp] at h; simp at h
  | some ts =>
    rw [hp] at h
    rw [Option.map_some'] at h
    injection h with h
    subst h
    simp

/-- Successful parsing of a batch preserves its length and provides a
source document for every parsed coupon. -/
theorem parseAll_length_mem :
    ∀ (docs : List StoredCoupon) (cs : List Coupon), parseAll docs = some cs →
      cs.length = docs.length ∧ ∀ c ∈ cs, ∃ d ∈ docs, parseDoc d = some c
  | [], cs, h => by
    simp only [parseAll, Option.some.injEq] at h
    subst h
    simp
  | d :: rest, cs, h => by
    simp only [parseAll, Option.bind_eq_bind] at h
    cases hp : parseDoc d with
    | none => rw [hp] at h; simp at h
    | some c =>
      rw [hp] at h
      cases hr : parseAll rest with
      | none => rw [hr] at h; simp at h
      | some cs0 =>
        rw [hr] at h
        simp only [Option.some_bind, Option.some.injEq] at h
        subst h
        obtain ⟨hlen, hmem⟩ := parseAll_length_mem rest cs0 hr
        refine ⟨by simp [hlen], ?_⟩
        intro c2 hc2
        rcases List.mem_cons.mp hc2 with rfl | hc2
        · exact ⟨d, by simp, hp⟩
        · obtain ⟨d2, hd2, hpd2⟩ := hmem c2 hc2
          exact ⟨d2, by simp [hd2], hpd2⟩

/-- C3 (counterexample): the claim "when `category` … [is] present [it is]
applied as [an] exact-match conjunctive filter" fails for the present but
empty `category=""` parameter: a store whose only coupon has category
`"Food"` still returns that coupon under `category=""`, although its
category does not equal `""`. -/
theorem C3_counterexample :
    get_coupons
        [⟨"i1".toList, "Nike".toList, none, "20% off".toList, "NIKE20".toList,
          "d".toList, "Food".toList, "2025-12-31".toList, false,
          isoStr ⟨2025, 1, 2, 3, 4, 5, 123456, 0⟩⟩]
        (some []) none none =
      .ok [⟨"i1".toList, "Nike".toList, none, "20% off".toList, "NIKE20".toList,
        "d".toList, "Food".toList, "2025-12-31".toList, false,
        ⟨2025, 1, 2, 3, 4, 5, 123456, 0⟩⟩] ∧
    ("Food".toList : Str) ≠ ([] : Str) := by
  exact ⟨by rfl, by decide⟩

/-- C3 (amended): `category` (when present **and non-empty**) and
`featured` (when present) act as exact-match conjunctive store-level
filters; a present non-empty `search` is applied after retrieval — the
result is exactly the retrieved result with the case-insensitive
three-field substring filter applied, whatever `category`/`featured`
filters are also in force — and at most 1000 records are ever returned. -/
theorem C3_list_contract (store : CouponStore) (category search : Option Str)
    (featured : Option Bool) :
    (∀ s, search = some s → s ≠ [] →
      get_coupons store category search featured =
        (get_coupons store category none featured).map
          (fun cs => cs.filter (matchesSearch s))) ∧
    (∀ cs, get_coupons store category search featured = .ok cs →
      cs.length ≤ 1000 ∧
      ∀ c ∈ cs,
        (∀ cat, category = some cat → cat ≠ [] → c.category = cat) ∧
        (∀ f, featured = some f → c.featured = f) ∧
        (∀ s, search = some s → s ≠ [] → matchesSearch s c = true)) := by
  constructor
  · rintro s rfl hs
    simp only [get_coupons]
    cases hp : parseAll
        ((store.filter (matchesFilter (couponQuery category featured))).take 1000) with
    | none => rfl
    | some cs0 => simp [Except.map, hs]
  · intro cs hok
    simp only [get_coupons] at hok
    cases hp : parseAll
        ((store.filter (matchesFilter (couponQuery category featured))).take 1000) with
    | none =>
      rw [hp] at hok
      exact absurd hok (by simp)
    | some cs0 =>
      rw [hp] at hok
      simp only [Except.ok.injEq] at hok
      obtain ⟨hlen0, hmem0⟩ := parseAll_length_mem _ _ hp
      have hlen1000 : cs0.length ≤ 1000 := by
        rw [hlen0]
        exact List.length_take_le 1000 _
      have hbase : ∀ c ∈ cs0,
          (∀ cat, category = some cat → cat ≠ [] → c.category = cat) ∧
          (∀ f, featured = some f → c.featured = f) := by
        intro c hc
        obtain ⟨d, hd, hpd⟩ := hmem0 c hc
        have hdf := (List.mem_filter.mp (List.mem_of_mem_take hd)).2
        obtain ⟨-, -, -, -, -, -, hcat, -, hfeat, -⟩ := parseDoc_fields d c hpd
        constructor
        · rintro cat rfl hcatne
          rw [hcat]
          simp only [couponQuery, matchesFilter, if_pos hcatne, Bool.and_eq_true,
            decide_eq_true_eq] at hdf
          exact hdf.1
        · rintro f rfl
          rw [hfeat]
          simp only [couponQuery, matchesFilter, Bool.and_eq_true,
            decide_eq_true_eq] at hdf
          exact hdf.2
      cases search with
      | none =>
        subst hok
        refine ⟨hlen1000, ?_⟩
        intro c hc
        obtain ⟨h1, h2⟩ := hbase c hc
        exact ⟨h1, h2, by rintro s hcon; cases hcon⟩
      | some s =>
        have hok2 : (if s ≠ [] then List.filter (matchesSearch s) cs0 else cs0) = cs := hok
        clear hok
        by_cases hs : s ≠ []
        · rw [if_pos hs] at hok2
          subst hok2
          refine ⟨le_trans (List.length_filter_le _ _) hlen1000, ?_⟩
          intro c hc
          obtain ⟨hc0, hmatch⟩ := List.mem_filter.mp hc
          obtain ⟨h1, h2⟩ := hbase c hc0
          exact ⟨h1, h2, by rintro s2 heq -; injection heq with heq; subst heq; exact hmatch⟩
        · rw [if_neg hs] at hok2
          subst hok2
          refine ⟨hlen1000, ?_⟩
          intro c hc
          obtain ⟨h1, h2⟩ := hbase c hc
          refine ⟨h1, h2, ?_⟩
          rintro s2 heq hne
          injection heq with heq
          subst heq
          exact absurd hne hs

/-! ## C2 — partial update -/

/-- A `$set` document never touches `id`, and `update_one` keeps the first match
findable: after `updateFirst` the first document with the target id is
the updated version of the one found before. -/
theorem find?_updateFirst (cid : Str) (u : CouponUpdate) :
    ∀ (store : CouponStore) (d : StoredCoupon),
      store.find? (fun x => decide (x.id = cid)) = some d →
      (updateFirst store cid u).find? (fun x => decide (x.id = cid)) =
        some (applyUpdate u d)
  | [], d, h => by simp at h
  | d0 :: rest, d, h => by
    by_cases h0 : d0.id = cid
    · rw [List.find?_cons_of_pos _ (by simpa using h0)] at h
      injection h with h
      subst h
      rw [updateFirst, if_pos h0]
      have hid : (applyUpdate u d0).id = d0.id := rfl
      rw [List.find?_cons_of_pos _ (by simpa [hid] using h0)]
    · rw [List.find?_cons_of_neg _ (by simpa using h0)] at h
      rw [updateFirst, if_neg h0]
      rw [List.find?_cons_of_neg _ (by simpa using h0)]
      exact find?_updateFirst cid u rest d h

/-- Unfolding of `update_coupon` once authorization has succeeded. -/
theorem update_coupon_eq (sessions : Sessions) (auth : Option Str) (tk : Str)
    (hok : verify_admin_token sessions auth = .ok tk) (cid : Str)
    (u : CouponUpdate) (store : CouponStore) :
    update_coupon sessions auth cid u store =
      match store.find? (fun x => decide (x.id = cid)) with
      | none => (.error errCouponNotFound, store)
      | some _ =>
        (readBack (if hasUpdates u then updateFirst store cid u else store) cid,
         if hasUpdates u then updateFirst store cid u else store) := by
  rw [update_coupon, hok]

/-- C2 (counterexample): the claim that providing a field with an
explicit `null` "is distinguished from omitting the field and is still
applied" is false: a body that sets `logo_url: null` validates to exactly
the same `CouponUpdate` as a body that omits the field, and the update
leaves the stored `logo_url` (`"x"`) in place instead of clearing it. -/
theorem C2_counterexample :
    validateUpdate ⟨.absent, .null, .absent, .absent, .absent, .absent, .absent, .absent⟩ =
      validateUpdate ⟨.absent, .absent, .absent, .absent, .absent, .absent, .absent, .absent⟩ ∧
    update_coupon [(("tok".toList : Str), ⟨"raj2151".toList, ⟨2025, 1, 1, 0, 0, 0, 0, 0⟩⟩)]
        (some ("Bearer tok".toList)) ("i1".toList)
        (validateUpdate ⟨.absent, .null, .absent, .absent, .absent, .absent, .absent, .absent⟩)
        [⟨"i1".toList, "Nike".toList, some ("x".toList), "20% off".toList,
          "NIKE20".toList, "d".toList, "Food".toList, "2025-12-31".toList, false,
          isoStr ⟨2025, 1, 2, 3, 4, 5, 123456, 0⟩⟩] =
      (.ok ⟨"i1".toList, "Nike".toList, some ("x".toList), "20% off".toList,
          "NIKE20".toList, "d".toList, "Food".toList, "2025-12-31".toList, false,
          ⟨2025, 1, 2, 3, 4, 5, 123456, 0⟩⟩,
       [⟨"i1".toList, "Nike".toList, some ("x".toList), "20% off".toList,
          "NIKE20".toList, "d".toList, "Food".toList, "2025-12-31".toList, false,
          isoStr ⟨2025, 1, 2, 3, 4, 5, 123456, 0⟩⟩]) := by
  refine ⟨by decide, ?_⟩
  have hver : verify_admin_token
      [(("tok".toList : Str), ⟨"raj2151".toList, ⟨2025, 1, 1, 0, 0, 0, 0, 0⟩⟩)]
      (some ("Bearer ".toList ++ "tok".toList)) = .ok ("tok".toList) :=
    verify_ok_of_registered _ _ (by decide) (by decide)
  rw [show ("Bearer tok".toList : Str) = "Bearer ".toList ++ "tok".toList from by decide]
  rw [update_coupon_eq _ _ _ hver]
  rfl

/-- C2 (amended): for an authorized request, update fails with `NotFound`
(404) when no document has the target id; otherwise exactly the fields
whose validated value is non-`None` are applied to the first matching
document — so a provided empty string or `false` **is** applied, but a
field provided as explicit `null` validates to `None` and is treated the
same as an omitted field (left untouched): the sentinel is `None`, not an
explicit per-field absent/set tri-state. -/
theorem C2_update_contract (sessions : Sessions) (auth : Option Str) (tk : Str)
    (hok : verify_admin_token sessions auth = .ok tk) (cid : Str)
    (b : CouponUpdateBody) (store : CouponStore) :
    (store.find? (fun x => decide (x.id = cid)) = none →
      update_coupon sessions auth cid (validateUpdate b) store =
        (.error errCouponNotFound, store)) ∧
    (∀ d, store.find? (fun x => decide (x.id = cid)) = some d →
      ∃ d2, (update_coupon sessions auth cid (validateUpdate b) store).2.find?
          (fun x => decide (x.id = cid)) = some d2 ∧
        d2.store_name = (match b.store_name with | .val v => v | _ => d.store_name) ∧
        d2.logo_url = (match b.logo_url with | .val v => some v | _ => d.logo_url) ∧
        d2.title = (match b.title with | .val v => v | _ => d.title) ∧
        d2.code = (match b.code with | .val v => v | _ => d.code) ∧
        d2.description =
          (match b.description with | .val v => v | _ => d.description) ∧
        d2.category = (match b.category with | .val v => v | _ => d.category) ∧
        d2.expiry_date =
          (match b.expiry_date with | .val v => v | _ => d.expiry_date) ∧
        d2.featured = (match b.featured with | .val v => v | _ => d.featured)) := by
  constructor
  · intro hnone
    rw [update_coupon_eq sessions auth tk hok, hnone]
  · intro d hfind
    have heq := update_coupon_eq sessions auth tk hok cid (validateUpdate b) store
    rw [hfind] at heq
    by_cases hupd : hasUpdates (validateUpdate b) = true
    · rw [if_pos hupd] at heq
      have heq2 : update_coupon sessions auth cid (validateUpdate b) store =
          (readBack (updateFirst store cid (validateUpdate b)) cid,
           updateFirst store cid (validateUpdate b)) := heq
      refine ⟨applyUpdate (validateUpdate b) d, ?_, ?_, ?_, ?_, ?_, ?_, ?_, ?_, ?_⟩
      · rw [heq2]
        exact find?_updateFirst cid _ store d hfind
      · cases hv : b.store_name <;>
          simp [applyUpdate, validateUpdate, JsonField.validate, hv]
      · cases hv : b.logo_url <;>
          simp [applyUpdate, validateUpdate, JsonField.validate, hv]
      · cases hv : b.title <;>
          simp [applyUpdate, validateUpdate, JsonField.validate, hv]
      · cases hv : b.code <;>
          simp [applyUpdate, validateUpdate, JsonField.validate, hv]
      · cases hv : b.description <;>
          simp [applyUpdate, validateUpdate, JsonField.validate, hv]
      · cases hv : b.category <;>
          simp [applyUpdate, validateUpdate, JsonField.validate, hv]
      · cases hv : b.expiry_date <;>
          simp [applyUpdate, validateUpdate, JsonField.validate, hv]
      · cases hv : b.featured <;>
          simp [applyUpdate, validateUpdate, JsonField.validate, hv]
    · rw [if_neg hupd] at heq
      have heq2 : update_coupon sessions auth cid (validateUpdate b) store =
          (readBack store cid, store) := heq
      simp only [hasUpdates, Bool.or_eq_true] at hupd
      push_neg at hupd
      obtain ⟨⟨⟨⟨⟨⟨⟨h1, h2⟩, h3⟩, h4⟩, h5⟩, h6⟩, h7⟩, h8⟩ := hupd
      refine ⟨d, by rw [heq2]; exact hfind, ?_, ?_, ?_, ?_, ?_, ?_, ?_, ?_⟩
      · cases hv : b.store_name <;> first
          | rfl
          | (exfalso; apply h1; simp [validateUpdate, JsonField.validate, hv])
      · cases hv : b.logo_url <;> first
          | rfl
          | (exfalso; apply h2; simp [validateUpdate, JsonField.validate, hv])
      · cases hv : b.title <;> first
          | rfl
          | (exfalso; apply h3; simp [validateUpdate, JsonField.validate, hv])
      · cases hv : b.code <;> first
          | rfl
          | (exfalso; apply h4; simp [validateUpdate, JsonField.validate, hv])
      · cases hv : b.description <;> first
          | rfl
          | (exfalso; apply h5; simp [validateUpdate, JsonField.validate, hv])
      · cases hv : b.category <;> first
          | rfl
          | (exfalso; apply h6; simp [validateUpdate, JsonField.validate, hv])
      · cases hv : b.expiry_date <;> first
          | rfl
          | (exfalso; apply h7; simp [validateUpdate, JsonField.validate, hv])
      · cases hv : b.featured <;> first
          | rfl
          | (exfalso; apply h8; simp [validateUpdate, JsonField.validate, hv])

/-- C2 (witness): the contract applied to a concrete store: an update
providing `store_name` as the (falsy) empty string **is** applied, while
the omitted `logo_url` stays `"x"`. -/
theorem C2_witness :
    ∃ d2, (update_coupon
        [(("tok".toList : Str), ⟨"raj2151".toList, ⟨2025, 1, 1, 0, 0, 0, 0, 0⟩⟩)]
        (some ("Bearer ".toList ++ "tok".toList)) ("i1".toList)
        (validateUpdate
          ⟨.val [], .absent, .absent, .absent, .absent, .absent, .absent, .absent⟩)
        [⟨"i1".toList, "Nike".toList, some ("x".toList), "20% off".toList,
          "NIKE20".toList, "d".toList, "Food".toList, "2025-12-31".toList, false,
          isoStr ⟨2025, 1, 2, 3, 4, 5, 123456, 0⟩⟩]).2.find?
        (fun x => decide (x.id = "i1".toList)) = some d2 ∧
      d2.store_name = ([] : Str) ∧ d2.logo_url = some ("x".toList) := by
  have hver : verify_admin_token
      [(("tok".toList : Str), ⟨"raj2151".toList, ⟨2025, 1, 1, 0, 0, 0, 0, 0⟩⟩)]
      (some ("Bearer ".toList ++ "tok".toList)) = .ok ("tok".toList) :=
    verify_ok_of_registered _ _ (by decide) (by decide)
  obtain ⟨d2, hfind2, hsn, hlu, -, -, -, -, -, -⟩ :=
    (C2_update_contract _ _ _ hver ("i1".toList)
      ⟨.val [], .absent, .absent, .absent, .absent, .absent, .absent, .absent⟩
      [⟨"i1".toList, "Nike".toList, some ("x".toList), "20% off".toList,
        "NIKE20".toList, "d".toList, "Food".toList, "2025-12-31".toList, false,
        isoStr ⟨2025, 1, 2, 3, 4, 5, 123456, 0⟩⟩]).2
      ⟨"i1".toList, "Nike".toList, some ("x".toList), "20% off".toList,
        "NIKE20".toList, "d".toList, "Food".toList, "2025-12-31".toList, false,
        isoStr ⟨2025, 1, 2, 3, 4, 5, 123456, 0⟩⟩ (by decide)
  exact ⟨d2, hfind2, hsn, hlu⟩

/-- C3 (witness): the search-commutes-with-filters part of the list
contract at a concrete store and query. -/
theorem C3_witness :
    get_coupons
        [⟨"i1".toList, "Nike".toList, none, "20% off".toList, "NIKE20".toList,
          "d".toList, "Food".toList, "2025-12-31".toList, false,
          isoStr ⟨2025, 1, 2, 3, 4, 5, 123456, 0⟩⟩]
        (some ("Food".toList)) (some ("nike".toList)) (some false) =
      (get_coupons
        [⟨"i1".toList, "Nike".toList, none, "20% off".toList, "NIKE20".toList,
          "d".toList, "Food".toList, "2025-12-31".toList, false,
          isoStr ⟨2025, 1, 2, 3, 4, 5, 123456, 0⟩⟩]
        (some ("Food".toList)) none (some false)).map
        (fun cs => cs.filter (matchesSearch ("nike".toList))) := by
  exact (C3_list_contract _ (some ("Food".toList)) (some ("nike".toList))
    (some false)).1 ("nike".toList) rfl (by decide)

/-! ## C4 — login -/

/-- C4: login succeeds exactly when both credentials equal the configured
admin values under (case-sensitive) string equality, and otherwise fails
with the single generic 401 `"Invalid credentials"` error — the same
value whichever field was wrong.  Each success mints the token from 32
fresh random bytes (256 ≥ 128 bits; the tokens are injective in the
random bytes and consist only of URL-safe characters) and registers a new
session: two logins with correct credentials and distinct random bytes
yield two distinct tokens, both independently accepted by
`verify_admin_token`. -/
theorem C4_login_contract (adminU adminP username password : Str)
    (e1 e2 : List Nat) (now1 now2 : DateTime) (sessions : Sessions) :
    (¬(username = adminU ∧ password = adminP) →
      admin_login adminU adminP username password e1 now1 sessions =
        (.error errInvalidCredentials, sessions)) ∧
    (username = adminU → password = adminP →
      e1.length = 32 → e2.length = 32 →
      (∀ x ∈ e1, x < 256) → (∀ x ∈ e2, x < 256) → e1 ≠ e2 →
      ∃ t1 t2 s1 s2,
        admin_login adminU adminP username password e1 now1 sessions =
          (.ok (t1, "Login successful".toList), s1) ∧
        admin_login adminU adminP username password e2 now2 s1 =
          (.ok (t2, "Login successful".toList), s2) ∧
        t1 ≠ t2 ∧
        (∀ c ∈ t1, urlTokenChar c = true) ∧
        (∀ c ∈ t2, urlTokenChar c = true) ∧
        verify_admin_token s2 (some ("Bearer ".toList ++ t1)) = .ok t1 ∧
        verify_admin_token s2 (some ("Bearer ".toList ++ t2)) = .ok t2) := by
  constructor
  · intro hbad
    rw [admin_login, if_neg hbad]
  · rintro rfl rfl - - hb1 hb2 hne
    refine ⟨tokenUrlsafe e1, tokenUrlsafe e2,
      sessions ++ [(tokenUrlsafe e1, ⟨username, now1⟩)],
      (sessions ++ [(tokenUrlsafe e1, ⟨username, now1⟩)]) ++
        [(tokenUrlsafe e2, ⟨username, now2⟩)], ?_, ?_, ?_, ?_, ?_, ?_, ?_⟩
    · rw [admin_login, if_pos ⟨rfl, rfl⟩]
    · rw [admin_login, if_pos ⟨rfl, rfl⟩]
    · exact tokenUrlsafe_injective e1 e2 hb1 hb2 hne
    · exact urlTokenChar_of_mem_tokenUrlsafe e1 hb1
    · exact urlTokenChar_of_mem_tokenUrlsafe e2 hb2
    · exact verify_ok_of_registered _ _
        (List.mem_map_of_mem Prod.fst (List.mem_append.mpr (Or.inl
          (List.mem_append.mpr (Or.inr (List.mem_singleton.mpr rfl))))))
        (bearer_not_infix_of_urlTokenChars _ (urlTokenChar_of_mem_tokenUrlsafe e1 hb1))
    · exact verify_ok_of_registered _ _
        (List.mem_map_of_mem Prod.fst (List.mem_append.mpr (Or.inr
          (List.mem_singleton.mpr rfl))))
        (bearer_not_infix_of_urlTokenChars _ (urlTokenChar_of_mem_tokenUrlsafe e2 hb2))

/-- C4 (witness): the login contract at concrete credentials and two
concrete distinct 32-byte strings. -/
theorem C4_witness :
    admin_login ("raj2151".toList) ("passraj2151".toList) ("raj2151".toList)
        ("wrong".toList) (List.replicate 32 0) ⟨2025, 1, 1, 0, 0, 0, 0, 0⟩ [] =
      (.error errInvalidCredentials, []) ∧
    ∃ t1 t2 s1 s2,
      admin_login ("raj2151".toList) ("passraj2151".toList) ("raj2151".toList)
          ("passraj2151".toList) (List.replicate 32 0) ⟨2025, 1, 1, 0, 0, 0, 0, 0⟩ [] =
        (.ok (t1, "Login successful".toList), s1) ∧
      admin_login ("raj2151".toList) ("passraj2151".toList) ("raj2151".toList)
          ("passraj2151".toList) (List.replicate 32 1) ⟨2025, 1, 1, 0, 0, 0, 1, 0⟩ s1 =
        (.ok (t2, "Login successful".toList), s2) ∧
      t1 ≠ t2 ∧
      (∀ c ∈ t1, urlTokenChar c = true) ∧
      (∀ c ∈ t2, urlTokenChar c = true) ∧
      verify_admin_token s2 (some ("Bearer ".toList ++ t1)) = .ok t1 ∧
      verify_admin_token s2 (some ("Bearer ".toList ++ t2)) = .ok t2 := by
  constructor
  · exact (C4_login_contract ("raj2151".toList) ("passraj2151".toList)
      ("raj2151".toList) ("wrong".toList) (List.replicate 32 0) (List.replicate 32 1)
      ⟨2025, 1, 1, 0, 0, 0, 0, 0⟩ ⟨2025, 1, 1, 0, 0, 0, 1, 0⟩ []).1 (by decide)
  · exact (C4_login_contract ("raj2151".toList) ("passraj2151".toList)
      ("raj2151".toList) ("passraj2151".toList) (List.replicate 32 0)
      (List.replicate 32 1) ⟨2025, 1, 1, 0, 0, 0, 0, 0⟩ ⟨2025, 1, 1, 0, 0, 0, 1, 0⟩
      []).2 rfl rfl (by decide) (by decide) (by decide) (by decide) (by decide)

/-! ## C5 — failed authorization short-circuits every mutating route -/

/-- C5: whenever `verify_admin_token` fails (missing/malformed header or
unregistered token), every mutating admin operation — create, update,
delete, upload — returns that same 401-status error and leaves the
coupon store completely unchanged. -/
theorem C5_auth_short_circuit (sessions : Sessions) (auth : Option Str) (e : ApiErr)
    (hfail : verify_admin_token sessions auth = .error e) :
    e.status = 401 ∧
    (∀ c genId now store,
      create_coupon sessions auth c genId now store = (.error e, store)) ∧
    (∀ cid u store, update_coupon sessions auth cid u store = (.error e, store)) ∧
    (∀ cid store, delete_coupon sessions auth cid store = (.error e, store)) ∧
    (∀ ct bytes store, upload_logo sessions auth ct bytes store = (.error e, store)) := by
  refine ⟨?_, ?_, ?_, ?_, ?_⟩
  · rcases verify_error_cases sessions auth e hfail with rfl | rfl <;> rfl
  · intro c genId now store
    rw [create_coupon, hfail]
  · intro cid u store
    rw [update_coupon, hfail]
  · intro cid store
    rw [delete_coupon, hfail]
  · intro ct bytes store
    rw [upload_logo.eq_def, hfail]

/-- C5 (witness): the short-circuit at a concrete unauthorized request
(no header, one stored coupon, empty session store). -/
theorem C5_witness :
    errNotAuthenticated.status = 401 ∧
    create_coupon [] none
        ⟨"Nike".toList, none, "20% off".toList, "NIKE20".toList, "d".toList,
          "Food".toList, "2025-12-31".toList, false⟩
        ("i2".toList) ⟨2025, 1, 1, 0, 0, 0, 0, 0⟩
        [⟨"i1".toList, "Nike".toList, none, "20% off".toList, "NIKE20".toList,
          "d".toList, "Food".toList, "2025-12-31".toList, false,
          isoStr ⟨2025, 1, 2, 3, 4, 5, 123456, 0⟩⟩] =
      (.error errNotAuthenticated,
       [⟨"i1".toList, "Nike".toList, none, "20% off".toList, "NIKE20".toList,
          "d".toList, "Food".toList, "2025-12-31".toList, false,
          isoStr ⟨2025, 1, 2, 3, 4, 5, 123456, 0⟩⟩]) ∧
    delete_coupon [] none ("i1".toList)
        [⟨"i1".toList, "Nike".toList, none, "20% off".toList, "NIKE20".toList,
          "d".toList, "Food".toList, "2025-12-31".toList, false,
          isoStr ⟨2025, 1, 2, 3, 4, 5, 123456, 0⟩⟩] =
      (.error errNotAuthenticated,
       [⟨"i1".toList, "Nike".toList, none, "20% off".toList, "NIKE20".toList,
          "d".toList, "Food".toList, "2025-12-31".toList, false,
          isoStr ⟨2025, 1, 2, 3, 4, 5, 123456, 0⟩⟩]) := by
  obtain ⟨hst, hcreate, -, hdelete, -⟩ :=
    C5_auth_short_circuit [] none errNotAuthenticated rfl
  exact ⟨hst, hcreate _ _ _ _, hdelete _ _⟩

/-! ## C6 — create/get round trip -/

/-- Lookup via `find_one` skips a collection with no match. -/
theorem find?_append_of_none {α : Type} (p : α → Bool) :
    ∀ (l1 : List α) (l2 : List α), l1.find? p = none →
      (l1 ++ l2).find? p = l2.find? p
  | [], l2, _ => by simp
  | a :: l, l2, h => by
    cases hp : p a with
    | true => simp [List.find?_cons, hp] at h
    | false =>
      simp only [List.find?_cons, hp] at h
      simp only [List.cons_append, List.find?_cons, hp]
      exact find?_append_of_none p l l2 h

/-- C6: for an authorized create with a fresh generated id, the stored
document serialises `created_at` with `isoformat()`, and reading the
coupon back yields a record equal to the input on every input field, with
the generated `id` and with `created_at` parsed back from the ISO string
to exactly the timestamp the server generated (microsecond precision,
UTC offset preserved). -/
theorem C6_create_get_roundtrip (sessions : Sessions) (auth : Option Str) (tk : Str)
    (hok : verify_admin_token sessions auth = .ok tk) (c : CouponCreate)
    (genId : Str) (now : DateTime) (hnow : now.valid) (store : CouponStore)
    (hfresh : ∀ d ∈ store, d.id ≠ genId) :
    create_coupon sessions auth c genId now store =
      (.ok ⟨genId, c.store_name, c.logo_url, c.title, c.code, c.description,
          c.category, c.expiry_date, c.featured, now⟩,
       store ++ [⟨genId, c.store_name, c.logo_url, c.title, c.code, c.description,
          c.category, c.expiry_date, c.featured, isoStr now⟩]) ∧
    get_coupon
        (store ++ [⟨genId, c.store_name, c.logo_url, c.title, c.code, c.description,
          c.category, c.expiry_date, c.featured, isoStr now⟩]) genId =
      .ok ⟨genId, c.store_name, c.logo_url, c.title, c.code, c.description,
          c.category, c.expiry_date, c.featured, now⟩ := by
  constructor
  · rw [create_coupon, hok]
  · have hnone : store.find? (fun d => decide (d.id = genId)) = none :=
      List.find?_eq_none.mpr (fun d hd => by simpa using hfresh d hd)
    have hfind : (store ++ [(⟨genId, c.store_name, c.logo_url, c.title, c.code,
        c.description, c.category, c.expiry_date, c.featured,
        isoStr now⟩ : StoredCoupon)]).find?
          (fun d => decide (d.id = genId)) =
        some ⟨genId, c.store_name, c.logo_url, c.title, c.code, c.description,
          c.category, c.expiry_date, c.featured, isoStr now⟩ := by
      rw [find?_append_of_none _ store _ hnone]
      simp [List.find?_cons]
    have hparse : parseDoc (⟨genId, c.store_name, c.logo_url, c.title, c.code,
        c.description, c.category, c.expiry_date, c.featured,
        isoStr now⟩ : StoredCoupon) =
        some ⟨genId, c.store_name, c.logo_url, c.title, c.code, c.description,
          c.category, c.expiry_date, c.featured, now⟩ := by
      simp [parseDoc, parseIso_isoStr now hnow]
    have hred : get_coupon
        (store ++ [⟨genId, c.store_name, c.logo_url, c.title, c.code, c.description,
          c.category, c.expiry_date, c.featured, isoStr now⟩]) genId =
        match parseDoc (⟨genId, c.store_name, c.logo_url, c.title, c.code,
          c.description, c.category, c.expiry_date, c.featured,
          isoStr now⟩ : StoredCoupon) with
        | none => .error errInternal
        | some c2 => .ok c2 := by
      rw [get_coupon, hfind]
    rw [hred, hparse]

/-- C6 (witness): the round trip at a concrete coupon, id and creation
time. -/
theorem C6_witness :
    create_coupon [(("tok".toList : Str), ⟨"raj2151".toList, ⟨2025, 1, 1, 0, 0, 0, 0, 0⟩⟩)]
        (some ("Bearer ".toList ++ "tok".toList))
        ⟨"Nike".toList, none, "20% off".toList, "NIKE20".toList, "d".toList,
          "Food".toList, "2025-12-31".toList, false⟩
        ("i1".toList) ⟨2025, 1, 2, 3, 4, 5, 123456, 0⟩ [] =
      (.ok ⟨"i1".toList, "Nike".toList, none, "20% off".toList, "NIKE20".toList,
          "d".toList, "Food".toList, "2025-12-31".toList, false,
          ⟨2025, 1, 2, 3, 4, 5, 123456, 0⟩⟩,
       [⟨"i1".toList, "Nike".toList, none, "20% off".toList, "NIKE20".toList,
          "d".toList, "Food".toList, "2025-12-31".toList, false,
          isoStr ⟨2025, 1, 2, 3, 4, 5, 123456, 0⟩⟩]) ∧
    get_coupon
        [⟨"i1".toList, "Nike".toList, none, "20% off".toList, "NIKE20".toList,
          "d".toList, "Food".toList, "2025-12-31".toList, false,
          isoStr ⟨2025, 1, 2, 3, 4, 5, 123456, 0⟩⟩] ("i1".toList) =
      .ok ⟨"i1".toList, "Nike".toList, none, "20% off".toList, "NIKE20".toList,
          "d".toList, "Food".toList, "2025-12-31".toList, false,
          ⟨2025, 1, 2, 3, 4, 5, 123456, 0⟩⟩ := by
  have h := C6_create_get_roundtrip
    [(("tok".toList : Str), ⟨"raj2151".toList, ⟨2025, 1, 1, 0, 0, 0, 0, 0⟩⟩)]
    (some ("Bearer ".toList ++ "tok".toList)) ("tok".toList)
    (verify_ok_of_registered _ _ (by decide) (by decide))
    ⟨"Nike".toList, none, "20% off".toList, "NIKE20".toList, "d".toList,
      "Food".toList, "2025-12-31".toList, false⟩
    ("i1".toList) ⟨2025, 1, 2, 3, 4, 5, 123456, 0⟩ (by decide) [] (by simp)
  simpa using h

/-! ## C7 — empty update -/

/-- C7: for an authorized update of an existing coupon with zero provided
fields, the store is returned exactly as it was (no write at all — the
`if update_data:` guard skips `update_one`), and the handler still
returns the current record instead of failing. -/
theorem C7_empty_update (sessions : Sessions) (auth : Option Str) (tk : Str)
    (hok : verify_admin_token sessions auth = .ok tk) (cid : Str)
    (store : CouponStore) (d : StoredCoupon)
    (hfind : store.find? (fun x => decide (x.id = cid)) = some d)
    (c : Coupon) (hparse : parseDoc d = some c) :
    update_coupon sessions auth cid
        (validateUpdate
          ⟨.absent, .absent, .absent, .absent, .absent, .absent, .absent, .absent⟩)
        store =
      (.ok c, store) := by
  have heq := update_coupon_eq sessions auth tk hok cid
    (validateUpdate
      ⟨.absent, .absent, .absent, .absent, .absent, .absent, .absent, .absent⟩) store
  rw [hfind, if_neg (by decide)] at heq
  have heq2 : update_coupon sessions auth cid
      (validateUpdate
        ⟨.absent, .absent, .absent, .absent, .absent, .absent, .absent, .absent⟩)
      store = (readBack store cid, store) := heq
  have hrb : readBack store cid = .ok c := by
    rw [readBack, hfind]
    show (match parseDoc d with
      | none => (Except.error errInternal : Except ApiErr Coupon)
      | some c2 => Except.ok c2) = Except.ok c
    rw [hparse]
  rw [heq2, hrb]

/-- C7 (witness): the empty update at a concrete store. -/
theorem C7_witness :
    update_coupon [(("tok".toList : Str), ⟨"raj2151".toList, ⟨2025, 1, 1, 0, 0, 0, 0, 0⟩⟩)]
        (some ("Bearer ".toList ++ "tok".toList)) ("i1".toList)
        (validateUpdate
          ⟨.absent, .absent, .absent, .absent, .absent, .absent, .absent, .absent⟩)
        [⟨"i1".toList, "Nike".toList, none, "20% off".toList, "NIKE20".toList,
          "d".toList, "Food".toList, "2025-12-31".toList, false,
          isoStr ⟨2025, 1, 2, 3, 4, 5, 123456, 0⟩⟩] =
      (.ok ⟨"i1".toList, "Nike".toList, none, "20% off".toList, "NIKE20".toList,
          "d".toList, "Food".toList, "2025-12-31".toList, false,
          ⟨2025, 1, 2, 3, 4, 5, 123456, 0⟩⟩,
       [⟨"i1".toList, "Nike".toList, none, "20% off".toList, "NIKE20".toList,
          "d".toList, "Food".toList, "2025-12-31".toList, false,
          isoStr ⟨2025, 1, 2, 3, 4, 5, 123456, 0⟩⟩]) := by
  exact C7_empty_update _ _ ("tok".toList)
    (verify_ok_of_registered _ _ (by decide) (by decide)) ("i1".toList) _
    ⟨"i1".toList, "Nike".toList, none, "20% off".toList, "NIKE20".toList,
      "d".toList, "Food".toList, "2025-12-31".toList, false,
      isoStr ⟨2025, 1, 2, 3, 4, 5, 123456, 0⟩⟩
    (by simp [List.find?_cons])
    ⟨"i1".toList, "Nike".toList, none, "20% off".toList, "NIKE20".toList,
      "d".toList, "Food".toList, "2025-12-31".toList, false,
      ⟨2025, 1, 2, 3, 4, 5, 123456, 0⟩⟩
    (by simp [parseDoc, parseIso_isoStr ⟨2025, 1, 2, 3, 4, 5, 123456, 0⟩ (by decide)])

/-! ## C8 — `id` and `created_at` never change -/

/-- The `$set` document built from `CouponUpdate` has no `id` or
`created_at` key, so `updateFirst` preserves both fields of every
document (positionally). -/
theorem updateFirst_preserves_id_created (cid : Str) (u : CouponUpdate) :
    ∀ store : CouponStore,
      List.Forall₂ (fun d d' => d.id = d'.id ∧ d.created_at = d'.created_at)
        store (updateFirst store cid u)
  | [] => List.Forall₂.nil
  | d0 :: rest => by
    rw [updateFirst]
    by_cases h0 : d0.id = cid
    · rw [if_pos h0]
      exact List.Forall₂.cons ⟨rfl, rfl⟩
        ((List.forall₂_same).mpr (fun x _ => ⟨rfl, rfl⟩))
    · rw [if_neg h0]
      exact List.Forall₂.cons ⟨rfl, rfl⟩ (updateFirst_preserves_id_created cid u rest)

/-- One update request (whatever its authorization, target id and body)
preserves every document's `id` and `created_at`. -/
theorem update_coupon_preserves_id_created (sessions : Sessions) (auth : Option Str)
    (cid : Str) (u : CouponUpdate) (store : CouponStore) :
    List.Forall₂ (fun d d' => d.id = d'.id ∧ d.created_at = d'.created_at)
      store (update_coupon sessions auth cid u store).2 := by
  cases hv : verify_admin_token sessions auth with
  | error e =>
    rw [update_coupon, hv]
    exact (List.forall₂_same).mpr (fun x _ => ⟨rfl, rfl⟩)
  | ok tk =>
    have heq := update_coupon_eq sessions auth tk hv cid u store
    cases hfind : store.find? (fun x => decide (x.id = cid)) with
    | none =>
      rw [hfind] at heq
      have heq2 : update_coupon sessions auth cid u store =
          (.error errCouponNotFound, store) := heq
      rw [heq2]
      exact (List.forall₂_same).mpr (fun x _ => ⟨rfl, rfl⟩)
    | some d =>
      rw [hfind] at heq
      by_cases hupd : hasUpdates u = true
      · rw [if_pos hupd] at heq
        have heq2 : update_coupon sessions auth cid u store =
            (readBack (updateFirst store cid u) cid, updateFirst store cid u) := heq
        rw [heq2]
        exact updateFirst_preserves_id_created cid u store
      · rw [if_neg hupd] at heq
        have heq2 : update_coupon sessions auth cid u store =
            (readBack store cid, store) := heq
        rw [heq2]
        exact (List.forall₂_same).mpr (fun x _ => ⟨rfl, rfl⟩)

/-- The id/created_at-preservation relation composes along a sequence. -/
theorem forall2_preserve_trans :
    ∀ (l1 l2 l3 : CouponStore),
      List.Forall₂ (fun d d' => d.id = d'.id ∧ d.created_at = d'.created_at) l1 l2 →
      List.Forall₂ (fun d d' => d.id = d'.id ∧ d.created_at = d'.created_at) l2 l3 →
      List.Forall₂ (fun d d' => d.id = d'.id ∧ d.created_at = d'.created_at) l1 l3 := by
  intro l1 l2 l3 h1
  induction h1 generalizing l3 with
  | nil =>
    intro h2
    cases h2
    exact List.Forall₂.nil
  | cons hab hrest ih =>
    intro h2
    cases h2 with
    | cons hbc hrest2 =>
      exact List.Forall₂.cons ⟨hab.1.trans hbc.1, hab.2.trans hbc.2⟩ (ih _ hrest2)

/-- C8: over any sequence of update requests (each with its own sessions,
authorization header, target id and partial body), every document keeps
the `id` and `created_at` it was created with — update can never touch
them, since `CouponUpdate` has no such fields. -/
theorem C8_id_created_at_immutable
    (ops : List ((Sessions × Option Str) × (Str × CouponUpdate)))
    (store : CouponStore) :
    List.Forall₂ (fun d d' => d.id = d'.id ∧ d.created_at = d'.created_at) store
      (ops.foldl (fun st op => (update_coupon op.1.1 op.1.2 op.2.1 op.2.2 st).2)
        store) := by
  induction ops generalizing store with
  | nil => exact (List.forall₂_same).mpr (fun x _ => ⟨rfl, rfl⟩)
  | cons op rest ih =>
    rw [List.foldl_cons]
    exact forall2_preserve_trans _ _ _
      (update_coupon_preserves_id_created op.1.1 op.1.2 op.2.1 op.2.2 store)
      (ih _)

/-! ## C9 — logo upload -/

/-- C9: for an authorized upload, the request fails with the 400
`"File must be an image"` error exactly when the declared content type is
absent or does not start with `"image/"`; otherwise it returns the data
URL `data:<content-type>;base64,<base64 of the bytes>` — from which the
full byte content is recoverable (`b64Decode` inverts the encoding) — and
in every case the coupon store is left untouched. -/
theorem C9_upload_contract (sessions : Sessions) (auth : Option Str) (tk : Str)
    (hok : verify_admin_token sessions auth = .ok tk) (ct : Option Str)
    (contents : List Nat) (store : CouponStore) :
    (upload_logo sessions auth ct contents store).2 = store ∧
    (ct = none →
      upload_logo sessions auth ct contents store = (.error errFileMustBeImage, store)) ∧
    (∀ s, ct = some s → ¬ ("image/".toList <+: s) →
      upload_logo sessions auth ct contents store = (.error errFileMustBeImage, store)) ∧
    (∀ s, ct = some s → ("image/".toList <+: s) →
      upload_logo sessions auth ct contents store =
        (.ok ("data:".toList ++ s ++ ";base64,".toList ++ b64Encode contents),
         store)) ∧
    ((∀ x ∈ contents, x < 256) → b64Decode (b64Encode contents) = contents) := by
  have hred : upload_logo sessions auth ct contents store =
      match ct with
      | none => (.error errFileMustBeImage, store)
      | some s =>
        if s = [] ∨ ¬ ("image/".toList <+: s) then (.error errFileMustBeImage, store)
        else
          (.ok ("data:".toList ++ s ++ ";base64,".toList ++ b64Encode contents),
           store) := by
    rw [upload_logo.eq_def, hok]
  refine ⟨?_, ?_, ?_, ?_, fun hb => b64Decode_b64Encode contents hb⟩
  · rw [hred]
    cases ct with
    | none => rfl
    | some s =>
      show (if s = [] ∨ ¬ ("image/".toList <+: s) then
          ((.error errFileMustBeImage : Except ApiErr Str), store)
        else
          (.ok ("data:".toList ++ s ++ ";base64,".toList ++ b64Encode contents),
           store)).2 = store
      by_cases hc : s = [] ∨ ¬ ("image/".toList <+: s)
      · rw [if_pos hc]
      · rw [if_neg hc]
  · rintro rfl
    rw [hred]
  · rintro s rfl hno
    rw [hred]
    show (if s = [] ∨ ¬ ("image/".toList <+: s) then
        ((.error errFileMustBeImage : Except ApiErr Str), store)
      else
        (.ok ("data:".toList ++ s ++ ";base64,".toList ++ b64Encode contents),
         store)) = (.error errFileMustBeImage, store)
    rw [if_pos (Or.inr hno)]
  · rintro s rfl hpre
    rw [hred]
    show (if s = [] ∨ ¬ ("image/".toList <+: s) then
        ((.error errFileMustBeImage : Except ApiErr Str), store)
      else
        (.ok ("data:".toList ++ s ++ ";base64,".toList ++ b64Encode contents),
         store)) =
      (.ok ("data:".toList ++ s ++ ";base64,".toList ++ b64Encode contents), store)
    rw [if_neg ?_]
    rintro (rfl | hno)
    · have : ("image/".toList : Str) = [] := List.prefix_nil.mp hpre
      exact absurd this (by decide)
    · exact hno hpre

/-- C9 (witness): the upload contract at a concrete request: content type
`image/png`, bytes `"Man"` (base64 `TWFu`). -/
theorem C9_witness :
    upload_logo [(("tok".toList : Str), ⟨"raj2151".toList, ⟨2025, 1, 1, 0, 0, 0, 0, 0⟩⟩)]
        (some ("Bearer ".toList ++ "tok".toList)) (some ("image/png".toList))
        [77, 97, 110] [] =
      (.ok ("data:".toList ++ "image/png".toList ++ ";base64,".toList ++
        b64Encode [77, 97, 110]), []) ∧
    b64Decode (b64Encode [77, 97, 110]) = [77, 97, 110] := by
  have h := C9_upload_contract
    [(("tok".toList : Str), ⟨"raj2151".toList, ⟨2025, 1, 1, 0, 0, 0, 0, 0⟩⟩)]
    (some ("Bearer ".toList ++ "tok".toList)) ("tok".toList)
    (verify_ok_of_registered _ _ (by decide) (by decide)) (some ("image/png".toList))
    [77, 97, 110] []
  exact ⟨h.2.2.2.1 ("image/png".toList) rfl (by decide), h.2.2.2.2 (by decide)⟩
